import Mathlib

set_option maxRecDepth 100000

/-!
Shallow embedding of the easymod bridge (src/easymod/core.py).

Strings of the Python source are modelled as `List Char`; `os.environ` as a
function `String → Option String`; the filesystem as the list of existing
paths; `exec` of the init script as an effect on a name-indexed table of
globals, supplied by the surrounding `World`.  Each method of the `Module`
class becomes a total Lean function on an explicit `ModuleState`.
-/

/-- Python `hay.find(pat)` hit test: `pat` occurs in `hay` at index `i`. -/
abbrev occursAt (hay pat : List Char) (i : Nat) : Prop :=
  (hay.drop i).take pat.length = pat

/-- First index at which `pat` occurs in the haystack (Python `str.find`,
`some` part). -/
def pyFindPos (pat : List Char) : List Char → Option Nat
  | [] => if pat = [] then some 0 else none
  | c :: t =>
    if (c :: t).take pat.length = pat then some 0
    else (pyFindPos pat t).map (fun n => n + 1)

/-- Python `hay.find(pat)`: first index of occurrence, `-1` when absent. -/
def pyFind (hay pat : List Char) : Int :=
  match pyFindPos pat hay with
  | some i => (i : Int)
  | none => -1

/-- Resolve a (possibly negative) Python slice endpoint against length `n`. -/
def clampIndex (n : Nat) (a : Int) : Nat :=
  if a < 0 then ((n : Int) + a).toNat else min a.toNat n

/-- Python slice `s[a:b]` (step 1, possibly negative endpoints). -/
def pySlice (s : List Char) (a b : Int) : List Char :=
  (s.take (clampIndex s.length b)).drop (clampIndex s.length a)

/-- Python slice `s[a:]`. -/
def pySliceFrom (s : List Char) (a : Int) : List Char :=
  s.drop (clampIndex s.length a)

/-- Boolean substring test (used to state that error messages name their
subjects). -/
def strContains (hay pat : List Char) : Bool :=
  (List.range (hay.length + 1)).any (fun i => (hay.drop i).take pat.length == pat)

/-- Python `sep.join(parts)`. -/
def pyJoin (sep : List Char) : List (List Char) → List Char
  | [] => []
  | [x] => x
  | x :: y :: ys => x ++ sep ++ pyJoin sep (y :: ys)

/-- Character class `[\w|-]` of the sub-command regex (`\w` over the ASCII
man-page text, plus the literal `|` and `-`). -/
def isSubTokChar (c : Char) : Bool :=
  c.isAlphanum || c = '_' || c = '|' || c = '-'

/-- Character class `[A-Z|-|_]` of the environment-variable regex.  Inside a
class, `|-|` parses as the degenerate range from `|` to `|`, so the class is
the uppercase letters together with `|` and `_`. -/
def isEnvTokChar (c : Char) : Bool :=
  ('A' ≤ c && c ≤ 'Z') || c = '|' || c = '_'

/-- The literal part `sp\n\fB` following the leading any-character of the
pattern `.sp\n\\fB([...]+)\\fP`. -/
def sectionTrigger : List Char := ['s', 'p', '\n', '\\', 'f', 'B']

/-- The closing literal `\fP` of the pattern. -/
def fpClose : List Char := ['\\', 'f', 'P']

/-- Match of the pattern `.sp\n\\fB([cls]+)\\fP` anchored at the head of the
input: returns the total match length and the captured token.  The leading
`.` matches any character except newline; since `\` is not in either class,
the greedy `+` needs no backtracking. -/
def matchFrom (cls : Char → Bool) : List Char → Option (Nat × List Char)
  | [] => none
  | c :: rest =>
    if c = '\n' then none
    else if rest.take 6 = sectionTrigger then
      if (rest.drop 6).takeWhile cls = [] then none
      else if ((rest.drop 6).drop ((rest.drop 6).takeWhile cls).length).take 3 = fpClose then
        some (10 + ((rest.drop 6).takeWhile cls).length, (rest.drop 6).takeWhile cls)
      else none
    else none

/-- Fuelled left-to-right non-overlapping scan of `re.findall`, returning the
captured groups; the fuel only serves structural recursion. -/
def pyFindAllAux (cls : Char → Bool) : Nat → List Char → List (List Char)
  | 0, _ => []
  | fuel + 1, s =>
    match matchFrom cls s with
    | some pr => pr.2 :: pyFindAllAux cls fuel (s.drop pr.1)
    | none =>
      match s with
      | [] => []
      | _ :: t => pyFindAllAux cls fuel t

/-- `re.findall` for the pattern `.sp\n\\fB([cls]+)\\fP`. -/
def pyFindAll (cls : Char → Bool) (s : List Char) : List (List Char) :=
  pyFindAllAux cls s.length s

/-- Fuelled fnmatch-style matcher for glob patterns built from literals and
`*` (the only constructs in `*python*.py`). -/
def matchGlobAux : Nat → List Char → List Char → Bool
  | 0, _, _ => false
  | _ + 1, [], s => s.isEmpty
  | fuel + 1, '*' :: p, s =>
    matchGlobAux fuel p s ||
      (match s with
       | [] => false
       | _ :: s2 => matchGlobAux fuel ('*' :: p) s2)
  | fuel + 1, a :: p, s =>
    match s with
    | [] => false
    | b :: s2 => a == b && matchGlobAux fuel p s2

/-- fnmatch of a `*`/literal glob pattern against one path component. -/
def matchGlob (p s : List Char) : Bool :=
  matchGlobAux (p.length + s.length + 1) p s

/-- Split a path into its `/`-separated components. -/
def splitSlash : List Char → List (List Char)
  | [] => [[]]
  | c :: t =>
    if c = '/' then [] :: splitSlash t
    else
      match splitSlash t with
      | [] => [[c]]
      | h :: r => (c :: h) :: r

/-- Filename pattern of the init-script search. -/
def initFilePattern : List Char := "*python*.py".toList

/-- Directory component required by the init-script search. -/
def initComponent : List Char := "init".toList

/-- Does path `f` match `modules_home.glob("**/init/*python*.py")`?  `**`
matches any chain of directories (including none), then a literal `init`
component, then a filename matching `*python*.py`. -/
def isInitCandidate (home f : String) : Bool :=
  (f.toList.take (home.toList.length + 1) == home.toList ++ ['/']) &&
    (2 ≤ (splitSlash (f.toList.drop (home.toList.length + 1))).length) &&
    ((splitSlash (f.toList.drop (home.toList.length + 1))).getD
        ((splitSlash (f.toList.drop (home.toList.length + 1))).length - 2) [] == initComponent) &&
    matchGlob initFilePattern
      ((splitSlash (f.toList.drop (home.toList.length + 1))).getD
        ((splitSlash (f.toList.drop (home.toList.length + 1))).length - 1) [])

/-- `list(self.modules_home.glob("**/init/*python*.py"))` over the modelled
filesystem. -/
def globInitFiles (fs : List String) (home : String) : List String :=
  fs.filter (fun f => isInitCandidate home f)

/-- Opaque Python values passed to and returned from the dispatcher. -/
inductive PyObj
  | str (s : String)
  | num (n : Int)
  | obj (id : Nat)

/-- The bootstrapped `module` function: positional arguments (the first being
the sub-command name) and keyword arguments, to an opaque result. -/
def Dispatcher : Type := List PyObj → List (String × PyObj) → PyObj

/-- The exceptions raised by the bridge. -/
inductive PyErr
  | valueError (msg : List Char)
  | fileNotFoundError (msg : List Char)
  | environmentError (msg : List Char)
  | attributeError (msg : List Char)
deriving DecidableEq

/-- Instance state of the `Module` class. -/
structure ModuleState where
  modules_home : String
  init_file : String
  sub_commands : List String
  envinronment_variables : List String
  module : Dispatcher

/-- The ambient process: environment variables, existing filesystem paths,
file contents, and the effect of `exec`ing a script on the shared globals
table (queried by name for the resulting dispatcher). -/
structure World where
  env : String → Option String
  fs : List String
  read : String → List Char
  execEff : List Char → (String → Option Dispatcher) → (String → Option Dispatcher)
  globals0 : String → Option Dispatcher

/-- Default sub-commands (class attribute `Module.sub_commands`). -/
def Module.sub_commands : List String :=
  ["help", "add", "load", "rm", "unload", "swap", "switch", "show", "display",
   "list", "avail", "aliases", "use", "unuse", "refresh", "reload", "purge",
   "clear", "source", "whatis", "apropos", "keyword", "search", "test", "save",
   "restore", "saverm", "saveshow", "savelist", "initadd", "initprepend",
   "initrm", "initswitch", "initlist", "initclear", "path", "paths", "config"]

/-- Default environment variables (class attribute
`Module.envinronment_variables`, spelling as in the source). -/
def Module.envinronment_variables : List String :=
  ["LOADEDMODULES", "MODULECONTACT", "MODULEPATH", "MODULERCFILE",
   "MODULESHOME", "MODULES_AUTO_HANDLING", "MODULES_AVAIL_INDEPTH",
   "MODULES_CMD", "MODULES_COLLECTION_PIN_VERSION",
   "MODULES_COLLECTION_TARGET", "MODULES_COLOR", "CLICOLOR", "MODULES_COLORS",
   "MODULES_IMPLICIT_DEFAULT", "MODULES_LMALTNAME", "MODULES_LMCONFLICT",
   "MODULES_LMNOTUASKED", "MODULES_LMPREREQ", "MODULES_PAGER",
   "MODULES_RUN_QUARANTINE", "MODULES_SEARCH_MATCH",
   "MODULES_SET_SHELL_STARTUP", "MODULES_SILENT_SHELL_DEBUG",
   "MODULES_SITECONFIG", "MODULES_TERM_BACKGROUND",
   "MODULES_UNLOAD_MATCH_ORDER", "MODULES_USE_COMPAT_VERSION",
   "MODULES_VERBOSITY", "_LMFILES_"]

/-- The designated home environment variable. -/
def moduleshomeVar : String := "MODULESHOME"

/-- Conventional name of the dispatcher function in the shared globals. -/
def moduleFnName : String := "module"

/-- Message of the construction-time configuration error. -/
def configErrorMsg : List Char :=
  "Cannot automatically set modules_home. Environment variable MODULESHOME unset. Pass module home directory to Module".toList

/-- Message when the init-script search finds nothing. -/
def notFoundSearchMsg : List Char :=
  "Modules initialisation file could not be found. ".toList

/-- Message when an explicitly supplied init script does not exist. -/
def notFoundExplicitMsg (p : String) : List Char :=
  "Module initialisation file not found\n".toList ++ p.toList

/-- Message when the init-script search is ambiguous; lists every candidate,
comma-joined as in the source. -/
def multipleFoundMsg (cands : List String) : List Char :=
  "Multiple possible Module initialisation files found\n".toList ++
    pyJoin (", ".toList) (cands.map (fun c => c.toList))

/-- Message of the bootstrap failure. -/
def initErrorMsg : List Char :=
  "The module environment could not be initialised.".toList

/-- Message of the dynamic attribute failure, naming the attribute. -/
def attrErrorMsg (name : String) : List Char :=
  "Module has no such attribute ".toList ++ name.toList

/-- Header of the sub-commands section of the manual. -/
def ssMarker : List Char := ".SS Module Sub\\-Commands".toList

/-- Next structural marker bounding the sub-commands section. -/
def ssHeader : List Char := ".SS".toList

/-- Header of the environment-variables section of the manual. -/
def envMarker : List Char := ".SH ENVIRONMENT".toList

/-- Marker bounding the environment-variables section. -/
def envHeader : List Char := "\n.S".toList

/-- `Module.set_init_file`: explicit path checked for existence; otherwise a
recursive pattern search under the home, failing on zero or several hits. -/
def Module.set_init_file (fs : List String) (modules_home : String)
    (init_file : Option String) : Except PyErr String :=
  match init_file with
  | some p =>
    if p ∈ fs then .ok p else .error (.fileNotFoundError (notFoundExplicitMsg p))
  | none =>
    match globInitFiles fs modules_home with
    | [] => .error (.fileNotFoundError notFoundSearchMsg)
    | [c] => .ok c
    | cs => .error (.valueError (multipleFoundMsg cs))

/-- Home resolution of `Module.__init__`: explicit argument, else the
`MODULESHOME` environment variable, else a configuration error. -/
def Module.resolveHome (envM : String → Option String) (home : Option String) :
    Except PyErr String :=
  match home with
  | some h => .ok h
  | none =>
    match envM moduleshomeVar with
    | some h => .ok h
    | none => .error (.valueError configErrorMsg)

/-- `Module.__init__`: resolve the home, resolve the init file, execute it in
the shared globals, and retrieve the dispatcher by its conventional name. -/
def Module.init (w : World) (home init_file : Option String) :
    Except PyErr ModuleState :=
  match Module.resolveHome w.env home with
  | .error e => .error e
  | .ok h =>
    match Module.set_init_file w.fs h init_file with
    | .error e => .error e
    | .ok p =>
      match w.execEff (w.read p) w.globals0 moduleFnName with
      | some d =>
        .ok { modules_home := h, init_file := p,
              sub_commands := Module.sub_commands,
              envinronment_variables := Module.envinronment_variables,
              module := d }
      | none => .error (.environmentError initErrorMsg)

/-- Body of `Module.get_sub_commands` on the manual text: locate the section,
bound it at the next `.SS` with the source's arithmetic, and run the findall
scan. -/
def subCommandsOf (man : List Char) : List (List Char) :=
  let start := pyFind man ssMarker
  let fnd := pyFind (pySliceFrom man (start + 3)) ssHeader
  pyFindAll isSubTokChar (pySlice man start (start + fnd + 1))

/-- Body of `Module.get_environment_variables` on the manual text. -/
def envVarsOf (man : List Char) : List (List Char) :=
  let start := pyFind man envMarker
  let fnd := pyFind (pySliceFrom man (start + 3)) envHeader
  pyFindAll isEnvTokChar (pySlice man start (start + fnd + 1))

/-- `Module.get_sub_commands`: replaces the sub-command list with the parse
result. -/
def Module.get_sub_commands (st : ModuleState) (man : List Char) : ModuleState :=
  { st with sub_commands := (subCommandsOf man).map String.mk }

/-- `Module.get_environment_variables`: replaces the environment-variable
list with the parse result. -/
def Module.get_environment_variables (st : ModuleState) (man : List Char) :
    ModuleState :=
  { st with envinronment_variables := (envVarsOf man).map String.mk }

/-- `Module.parse_man_file`: both parses over the same manual text. -/
def Module.parse_man_file (st : ModuleState) (man : List Char) : ModuleState :=
  Module.get_environment_variables (Module.get_sub_commands st man) man

/-- `Module.__getattr__`: forward known sub-commands to the dispatcher with
the name prepended; otherwise an attribute error naming the attribute. -/
def Module.getattr (st : ModuleState) (name : String) :
    Except PyErr (List PyObj → List (String × PyObj) → PyObj) :=
  if name ∈ st.sub_commands then
    .ok (fun args kwargs => st.module (PyObj.str name :: args) kwargs)
  else
    .error (.attributeError (attrErrorMsg name))

/-- The `environ` property: fresh mapping over the known variables, omitting
names unset in the process environment. -/
def Module.environ (st : ModuleState) (osEnv : String → Option String) :
    List (String × String) :=
  st.envinronment_variables.filterMap (fun v => (osEnv v).map (fun x => (v, x)))

/-- Sample dispatcher for concrete instances. -/
def d0 : Dispatcher := fun args _ => PyObj.num args.length

/-- A concrete instance state holding the default capability set. -/
def sampleState : ModuleState :=
  { modules_home := "/opt/modules", init_file := "/opt/modules/init/python.py",
    sub_commands := Module.sub_commands,
    envinronment_variables := Module.envinronment_variables, module := d0 }

/-- World whose init script installs the dispatcher into the shared globals;
`MODULESHOME` is unset. -/
def worldA : World :=
  { env := fun _ => none, fs := ["/opt/modules/init/python.py"],
    read := fun _ => [],
    execEff := fun _ g => fun n => if n = moduleFnName then some d0 else g n,
    globals0 := fun _ => none }

/-- World whose init script leaves the shared globals untouched. -/
def worldB : World :=
  { env := fun _ => none, fs := ["/opt/modules/init/python.py"],
    read := fun _ => [], execEff := fun _ g => g, globals0 := fun _ => none }

/-- The `.sp\n\fBA\fP` entry of a manual section. -/
def entryA : List Char := ['.', 's', 'p', '\n', '\\', 'f', 'B', 'A', '\\', 'f', 'P']

/-- The `.sp\n\fBB-C\fP` entry of a manual section. -/
def entryBC : List Char :=
  ['.', 's', 'p', '\n', '\\', 'f', 'B', 'B', '-', 'C', '\\', 'f', 'P']

/-- Body of a well-formed sub-commands section with entries `A` and `B-C`:
the header, arbitrary inter-entry text, the two entries, and trailing text. -/
def bodyOf (b1 b2 b3 : List Char) : List Char :=
  ssMarker ++ b1 ++ entryA ++ b2 ++ entryBC ++ b3

/-- A manual text: arbitrary material, then the sub-commands section, bounded
by the next `.SS` header, then the rest of the manual. -/
def mkMan (pre b1 b2 b3 rest : List Char) : List Char :=
  pre ++ bodyOf b1 b2 b3 ++ ssHeader ++ rest

/-- The slice the source actually extracts for such a manual: the section
text short of its last two characters. -/
def sectionOf (b1 b2 b3 : List Char) : List Char :=
  ssMarker ++ b1 ++ entryA ++ b2 ++ entryBC ++ b3.take (b3.length - 2)

theorem occursAt_not_of_length (hay pat : List Char) (i : Nat) (hp : pat ≠ [])
    (hi : hay.length ≤ i) : ¬ occursAt hay pat i := by
  intro h
  have hd : hay.drop i = [] :=
    List.length_eq_zero.mp (by rw [List.length_drop]; omega)
  have h2 : (hay.drop i).take pat.length = pat := h
  rw [hd, List.take_nil] at h2
  exact hp h2.symm

theorem pyFindPos_eq_some (pat hay : List Char) (k : Nat)
    (hocc : occursAt hay pat k) (hmin : ∀ i, i < k → ¬ occursAt hay pat i) :
    pyFindPos pat hay = some k := by
  induction hay generalizing k with
  | nil =>
    cases k with
    | zero =>
      have hpat : pat = [] := by
        unfold occursAt at hocc
        rw [List.drop_nil, List.take_nil] at hocc
        exact hocc.symm
      simp [pyFindPos, hpat]
    | succ k =>
      exfalso
      apply hmin 0 (Nat.succ_pos k)
      unfold occursAt at hocc ⊢
      rw [List.drop_nil] at hocc ⊢
      exact hocc
  | cons c t ih =>
    cases k with
    | zero =>
      unfold occursAt at hocc
      rw [List.drop_zero] at hocc
      simp [pyFindPos, hocc]
    | succ k =>
      have h0 : ¬ ((c :: t).take pat.length = pat) := by
        have := hmin 0 (Nat.succ_pos k)
        unfold occursAt at this
        rwa [List.drop_zero] at this
      have ht : pyFindPos pat t = some k := by
        apply ih
        · exact hocc
        · intro i hi
          exact hmin (i + 1) (by omega)
      simp [pyFindPos, h0, ht]

theorem pyFindPos_eq_none (pat hay : List Char)
    (h : ∀ i, ¬ occursAt hay pat i) : pyFindPos pat hay = none := by
  induction hay with
  | nil =>
    have h0 := h 0
    unfold occursAt at h0
    rw [List.drop_nil, List.take_nil] at h0
    simp [pyFindPos]
    exact fun he => h0 he.symm
  | cons c t ih =>
    have h0 : ¬ ((c :: t).take pat.length = pat) := by
      have := h 0
      unfold occursAt at this
      rwa [List.drop_zero] at this
    have ht : pyFindPos pat t = none := ih (fun i => h (i + 1))
    simp [pyFindPos, h0, ht]

theorem pyFindPos_some_le (pat hay : List Char) (k : Nat)
    (h : pyFindPos pat hay = some k) : k + pat.length ≤ hay.length := by
  induction hay generalizing k with
  | nil =>
    by_cases hp : pat = []
    · simp [pyFindPos, hp] at h
      simp [hp, ← h]
    · simp [pyFindPos, hp] at h
  | cons c t ih =>
    by_cases h0 : (c :: t).take pat.length = pat
    · have hk : k = 0 := by
        simp [pyFindPos, h0] at h
        omega
      have hl : pat.length ≤ t.length + 1 := by
        have := congrArg List.length h0
        rw [List.length_take] at this
        simp only [List.length_cons] at this
        omega
      simp only [List.length_cons]
      omega
    · simp only [pyFindPos, if_neg h0, Option.map_eq_some'] at h
      obtain ⟨k2, hk2, hk⟩ := h
      have := ih k2 hk2
      simp only [List.length_cons]
      omega

theorem clampIndex_ofNat (n a : Nat) : clampIndex n (a : Int) = min a n := by
  unfold clampIndex
  rw [if_neg (by omega)]
  simp

theorem drop_clampIndex (s : List Char) (a : Int) (h : 0 ≤ a) :
    s.drop (clampIndex s.length a) = s.drop a.toNat := by
  unfold clampIndex
  rw [if_neg (by omega)]
  rcases le_or_lt a.toNat s.length with hle | hlt
  · rw [min_eq_left hle]
  · rw [min_eq_right (le_of_lt hlt)]
    have h1 : s.drop s.length = [] := List.drop_length s
    have h2 : s.drop a.toNat = [] :=
      List.length_eq_zero.mp (by rw [List.length_drop]; omega)
    rw [h1, h2]

theorem drop_take_eq_nil (s : List Char) (k : Nat) : (s.take k).drop k = [] :=
  List.length_eq_zero.mp (by rw [List.length_drop, List.length_take]; omega)

theorem strContains_parts (a pat b : List Char) :
    strContains (a ++ (pat ++ b)) pat = true := by
  unfold strContains
  rw [List.any_eq_true]
  refine ⟨a.length, ?_, ?_⟩
  · rw [List.mem_range]
    simp only [List.length_append]
    omega
  · rw [List.drop_left, beq_iff_eq]
    exact List.take_left pat b

theorem pyJoin_mem_decomp (sep : List Char) (l : List (List Char)) (c : List Char)
    (hc : c ∈ l) : ∃ x y, pyJoin sep l = x ++ (c ++ y) := by
  induction l with
  | nil => cases hc
  | cons a t ih =>
    cases hc with
    | head =>
      cases t with
      | nil => exact ⟨[], [], by simp [pyJoin]⟩
      | cons e r => exact ⟨[], sep ++ pyJoin sep (e :: r), by simp [pyJoin]⟩
    | tail _ hm =>
      cases t with
      | nil => cases hm
      | cons e r =>
        obtain ⟨x, y, hxy⟩ := ih hm
        refine ⟨a ++ sep ++ x, y, ?_⟩
        simp [pyJoin, hxy]

theorem matchFrom_some_pos (cls : Char → Bool) (s : List Char)
    (pr : Nat × List Char) (h : matchFrom cls s = some pr) :
    1 ≤ pr.1 ∧ 1 ≤ s.length := by
  cases s with
  | nil => simp [matchFrom] at h
  | cons c rest =>
    simp only [matchFrom] at h
    split_ifs at h
    any_goals cases h
    refine ⟨?_, ?_⟩
    · show 1 ≤ 10 + ((rest.drop 6).takeWhile cls).length
      omega
    · simp only [List.length_cons]
      omega

theorem pyFindAllAux_congr (cls : Char → Bool) (f1 : Nat) :
    ∀ (f2 : Nat) (s : List Char), s.length ≤ f1 → s.length ≤ f2 →
      pyFindAllAux cls f1 s = pyFindAllAux cls f2 s := by
  induction f1 with
  | zero =>
    intro f2 s h1 h2
    have hs : s = [] := List.length_eq_zero.mp (by omega)
    subst hs
    cases f2 <;> rfl
  | succ f ih =>
    intro f2 s h1 h2
    cases s with
    | nil => cases f2 <;> rfl
    | cons c t =>
      cases f2 with
      | zero => simp at h2
      | succ f2 =>
        simp only [pyFindAllAux]
        cases hm : matchFrom cls (c :: t) with
        | some pr =>
          obtain ⟨hp1, _⟩ := matchFrom_some_pos cls (c :: t) pr hm
          simp only [List.length_cons] at h1 h2
          have hl1 : ((c :: t).drop pr.1).length ≤ f := by
            rw [List.length_drop]
            simp only [List.length_cons]
            omega
          have hl2 : ((c :: t).drop pr.1).length ≤ f2 := by
            rw [List.length_drop]
            simp only [List.length_cons]
            omega
          exact congrArg (fun l => pr.2 :: l) (ih f2 _ hl1 hl2)
        | none =>
          simp only [List.length_cons] at h1 h2
          exact ih f2 t (by omega) (by omega)

theorem pyFindAll_eq_match (cls : Char → Bool) (s : List Char)
    (pr : Nat × List Char) (h : matchFrom cls s = some pr) :
    pyFindAll cls s = pr.2 :: pyFindAll cls (s.drop pr.1) := by
  obtain ⟨hp1, hp2⟩ := matchFrom_some_pos cls s pr h
  have hstep : pyFindAllAux cls s.length s
      = pr.2 :: pyFindAllAux cls (s.length - 1) (s.drop pr.1) := by
    obtain ⟨n, hn⟩ : ∃ n, s.length = n + 1 := ⟨s.length - 1, by omega⟩
    rw [hn]
    simp only [pyFindAllAux, h, Nat.add_sub_cancel]
  unfold pyFindAll
  rw [hstep]
  congr 1
  exact pyFindAllAux_congr cls (s.length - 1) (s.drop pr.1).length (s.drop pr.1)
    (by rw [List.length_drop]; omega) (le_refl _)

theorem pyFindAll_step (cls : Char → Bool) (c : Char) (t : List Char)
    (h : matchFrom cls (c :: t) = none) :
    pyFindAll cls (c :: t) = pyFindAll cls t := by
  unfold pyFindAll
  simp only [List.length_cons, pyFindAllAux]
  rw [h]

theorem pyFindAll_skip (cls : Char → Bool) (s : List Char) (k : Nat)
    (h : ∀ j, j < k → matchFrom cls (s.drop j) = none) :
    pyFindAll cls s = pyFindAll cls (s.drop k) := by
  induction k with
  | zero => simp
  | succ k ih =>
    rw [ih (fun j hj => h j (by omega))]
    have hstep : s.drop (k + 1) = (s.drop k).drop 1 := by
      rw [List.drop_drop]
    cases hs : s.drop k with
    | nil =>
      rw [hstep, hs]
      rfl
    | cons c t =>
      have hm : matchFrom cls (c :: t) = none := hs ▸ h k (by omega)
      rw [hstep, hs]
      exact pyFindAll_step cls c t hm

theorem pyFindAll_skip_between (cls : Char → Bool) (s : List Char) (a b : Nat)
    (h : ∀ j, a ≤ j → j < b → matchFrom cls (s.drop j) = none) :
    pyFindAll cls (s.drop a) = pyFindAll cls (s.drop b) ∨ b < a := by
  rcases le_or_lt a b with hab | hab
  · left
    have hk := pyFindAll_skip cls (s.drop a) (b - a) (fun j hj => by
      rw [List.drop_drop]
      exact h (a + j) (by omega) (by omega))
    rw [hk, List.drop_drop]
    congr 2
    omega
  · right
    exact hab

/-- Name of a known sub-command, for concrete instantiation. -/
def loadCmd : String := "load"

/-- Name outside every default capability list, for concrete instantiation. -/
def badAttr : String := "frobnicate"

/-- Filesystem with no init-script candidate under `/h`. -/
def fsZero : List String := ["/h/readme.txt"]

/-- Filesystem with exactly one init-script candidate under `/h`. -/
def fsOne : List String := ["/h/init/python.py"]

/-- Filesystem with two init-script candidates under `/h`. -/
def fsMany : List String := ["/h/init/python.py", "/h/v2/init/mypython3.py"]

/-- The state produced by constructing against `worldA` with an explicit
(nonexistent) home and an explicit init file. -/
def cxState : ModuleState :=
  { modules_home := "/missing", init_file := "/opt/modules/init/python.py",
    sub_commands := Module.sub_commands,
    envinronment_variables := Module.envinronment_variables, module := d0 }

/-- C1: for every name present in the CapabilitySet's sub-command sequence,
`__getattr__` returns a forwarding callable that calls the dispatcher with
the sub-command name as first positional argument followed by the caller's
arguments in order, returning the dispatcher's result unchanged. -/
theorem getattr_known_forwards (st : ModuleState) (name : String)
    (h : name ∈ st.sub_commands) :
    ∃ f, Module.getattr st name = .ok f ∧
      ∀ (args : List PyObj) (kwargs : List (String × PyObj)),
        f args kwargs = st.module (PyObj.str name :: args) kwargs := by
  refine ⟨fun args kwargs => st.module (PyObj.str name :: args) kwargs, ?_, ?_⟩
  · unfold Module.getattr
    rw [if_pos h]
  · intro args kwargs
    rfl

theorem getattr_known_forwards_witness :
    ∃ f, Module.getattr sampleState loadCmd = .ok f ∧
      ∀ (args : List PyObj) (kwargs : List (String × PyObj)),
        f args kwargs = sampleState.module (PyObj.str loadCmd :: args) kwargs :=
  getattr_known_forwards sampleState loadCmd (by decide)

/-- C5: for a name absent from the sub-command sequence, `__getattr__` fails
with an attribute error whose message names the attribute, and the stored
dispatcher plays no part: the outcome is identical for every dispatcher. -/
theorem getattr_unknown_error (st : ModuleState) (name : String)
    (h : name ∉ st.sub_commands) :
    Module.getattr st name = .error (.attributeError (attrErrorMsg name)) ∧
      strContains (attrErrorMsg name) name.toList = true ∧
      ∀ d : Dispatcher,
        Module.getattr { st with module := d } name = Module.getattr st name := by
  refine ⟨?_, ?_, ?_⟩
  · unfold Module.getattr
    rw [if_neg h]
  · unfold attrErrorMsg
    have hp := strContains_parts ("Module has no such attribute ".toList)
      name.toList []
    rwa [List.append_nil] at hp
  · intro d
    simp [Module.getattr, h]

theorem getattr_unknown_error_witness :
    Module.getattr sampleState badAttr
        = .error (.attributeError (attrErrorMsg badAttr)) ∧
      strContains (attrErrorMsg badAttr) badAttr.toList = true ∧
      ∀ d : Dispatcher,
        Module.getattr { sampleState with module := d } badAttr
          = Module.getattr sampleState badAttr :=
  getattr_unknown_error sampleState badAttr (by decide)

/-- C6: the environ view contains a pair exactly when the name is in the
CapabilitySet's environment-variable sequence and currently set in the
process environment, mapped to its current value. -/
theorem environ_mem_iff (st : ModuleState) (osEnv : String → Option String)
    (name v : String) :
    (name, v) ∈ Module.environ st osEnv ↔
      name ∈ st.envinronment_variables ∧ osEnv name = some v := by
  unfold Module.environ
  rw [List.mem_filterMap]
  constructor
  · rintro ⟨x, hx, hfx⟩
    rcases hmap : osEnv x with _ | val <;> rw [hmap] at hfx
    · cases hfx
    · simp only [Option.map_some', Option.some_inj, Prod.mk.injEq] at hfx
      obtain ⟨h1, h2⟩ := hfx
      subst h1
      subst h2
      exact ⟨hx, hmap⟩
  · rintro ⟨hmem, hval⟩
    refine ⟨name, hmem, ?_⟩
    rw [hval]
    rfl

/-- C8: with no home override and MODULESHOME unset, construction fails with
the configuration error, whose message names the variable and instructs the
caller to pass the home directory; the outcome is identical for every world
whose MODULESHOME is unset, so no filesystem access can influence it. -/
theorem construction_config_error (w : World) (init_file : Option String)
    (henv : w.env moduleshomeVar = none) :
    Module.init w none init_file = .error (.valueError configErrorMsg) ∧
      strContains configErrorMsg moduleshomeVar.toList = true ∧
      strContains configErrorMsg ("Pass module home directory to Module".toList)
        = true ∧
      ∀ w2 : World, w2.env moduleshomeVar = none →
        Module.init w2 none init_file = Module.init w none init_file := by
  have hbase : ∀ w3 : World, w3.env moduleshomeVar = none →
      Module.init w3 none init_file = .error (.valueError configErrorMsg) := by
    intro w3 h3
    simp [Module.init, Module.resolveHome, h3]
  refine ⟨hbase w henv, by decide, by decide, fun w2 h2 => ?_⟩
  rw [hbase w2 h2, hbase w henv]

theorem construction_config_error_witness :
    Module.init worldB none none = .error (.valueError configErrorMsg) ∧
      strContains configErrorMsg moduleshomeVar.toList = true ∧
      strContains configErrorMsg ("Pass module home directory to Module".toList)
        = true ∧
      ∀ w2 : World, w2.env moduleshomeVar = none →
        Module.init w2 none none = Module.init worldB none none :=
  construction_config_error worldB none rfl

/-- C10: an explicit, existing init-script path does not bypass home
resolution: with no home override and MODULESHOME unset, construction still
fails with the configuration error, because home resolution runs first. -/
theorem explicit_init_file_no_bypass (w : World) (p : String)
    (henv : w.env moduleshomeVar = none) (_hex : p ∈ w.fs) :
    Module.init w none (some p) = .error (.valueError configErrorMsg) := by
  simp [Module.init, Module.resolveHome, henv]

theorem explicit_init_file_no_bypass_witness :
    Module.init worldA none (some ("/opt/modules/init/python.py"))
      = .error (.valueError configErrorMsg) :=
  explicit_init_file_no_bypass worldA ("/opt/modules/init/python.py") rfl
    (by decide)

/-- C7: once the init file is resolved, construction fails with the
initialization error exactly when executing the script leaves no `module`
function retrievable from the shared globals; when one is present, it is
stored as the instance dispatcher. -/
theorem dispatcher_bootstrap_cases (w : World) (h : String)
    (init_file : Option String) (p : String)
    (hres : Module.set_init_file w.fs h init_file = .ok p) :
    (w.execEff (w.read p) w.globals0 moduleFnName = none →
      Module.init w (some h) init_file
        = .error (.environmentError initErrorMsg)) ∧
    ∀ d : Dispatcher,
      w.execEff (w.read p) w.globals0 moduleFnName = some d →
        Module.init w (some h) init_file
          = .ok { modules_home := h, init_file := p,
                  sub_commands := Module.sub_commands,
                  envinronment_variables := Module.envinronment_variables,
                  module := d } := by
  constructor
  · intro hnone
    simp [Module.init, Module.resolveHome, hres, hnone]
  · intro d hd
    simp [Module.init, Module.resolveHome, hres, hd]

theorem dispatcher_bootstrap_cases_witness :
    Module.init worldB (some ("/opt/modules"))
        (some ("/opt/modules/init/python.py"))
        = .error (.environmentError initErrorMsg) ∧
    Module.init worldA (some ("/opt/modules"))
        (some ("/opt/modules/init/python.py"))
        = .ok { modules_home := "/opt/modules",
                init_file := "/opt/modules/init/python.py",
                sub_commands := Module.sub_commands,
                envinronment_variables := Module.envinronment_variables,
                module := d0 } :=
  ⟨(dispatcher_bootstrap_cases worldB ("/opt/modules")
      (some ("/opt/modules/init/python.py")) ("/opt/modules/init/python.py")
      rfl).1 rfl,
   (dispatcher_bootstrap_cases worldA ("/opt/modules")
      (some ("/opt/modules/init/python.py")) ("/opt/modules/init/python.py")
      rfl).2 d0 rfl⟩

/-- C4: the recursive init-script search: exactly one candidate resolves to
that candidate; zero candidates fails with the not-found error; two or more
candidates fails with the ambiguity error whose message lists every
candidate — one is never picked silently. -/
theorem set_init_file_search_cases (fs : List String) (home : String) :
    (globInitFiles fs home = [] →
      Module.set_init_file fs home none
        = .error (.fileNotFoundError notFoundSearchMsg)) ∧
    (∀ c, globInitFiles fs home = [c] →
      Module.set_init_file fs home none = .ok c) ∧
    (2 ≤ (globInitFiles fs home).length →
      Module.set_init_file fs home none
          = .error (.valueError (multipleFoundMsg (globInitFiles fs home))) ∧
        ∀ c ∈ globInitFiles fs home,
          strContains (multipleFoundMsg (globInitFiles fs home)) c.toList
            = true) := by
  refine ⟨?_, ?_, ?_⟩
  · intro h0
    unfold Module.set_init_file
    rw [h0]
  · intro c h1
    unfold Module.set_init_file
    rw [h1]
  · intro h2
    cases hg : globInitFiles fs home with
    | nil =>
      rw [hg] at h2
      simp at h2
    | cons a t =>
      cases t with
      | nil =>
        rw [hg] at h2
        simp at h2
      | cons e r =>
        constructor
        · unfold Module.set_init_file
          rw [hg]
        · intro c hc
          unfold multipleFoundMsg
          obtain ⟨x, y, hxy⟩ := pyJoin_mem_decomp (", ".toList) _ c.toList
            (List.mem_map_of_mem (fun s : String => s.toList) hc)
          rw [hxy, ← List.append_assoc]
          exact strContains_parts _ _ _

theorem set_init_file_search_cases_witness :
    Module.set_init_file fsZero ("/h") none
        = .error (.fileNotFoundError notFoundSearchMsg) ∧
    Module.set_init_file fsOne ("/h") none = .ok ("/h/init/python.py") ∧
    (Module.set_init_file fsMany ("/h") none
        = .error (.valueError (multipleFoundMsg (globInitFiles fsMany ("/h")))) ∧
      ∀ c ∈ globInitFiles fsMany ("/h"),
        strContains (multipleFoundMsg (globInitFiles fsMany ("/h"))) c.toList
          = true) :=
  ⟨(set_init_file_search_cases fsZero ("/h")).1 (by decide),
   (set_init_file_search_cases fsOne ("/h")).2.1 ("/h/init/python.py")
     (by decide),
   (set_init_file_search_cases fsMany ("/h")).2.2 (by decide)⟩

/-- C3 counterexample: construction succeeds while the stored home does not
exist anywhere in the filesystem — the home path is not validated at
construction when an existing init script is supplied explicitly. -/
theorem modules_home_not_validated_cx :
    Module.init worldA (some ("/missing"))
        (some ("/opt/modules/init/python.py")) = .ok cxState ∧
      ("/missing") ∉ worldA.fs := by
  exact ⟨rfl, by decide⟩

/-- C3 (amended): the stored ModuleHome is exactly the supplied path — or
the MODULESHOME value when no override is given — with no existence
validation, and no operation of the class changes it after construction. -/
theorem modules_home_stored_and_immutable (w : World)
    (home init_file : Option String) (st : ModuleState)
    (hok : Module.init w home init_file = .ok st) :
    (∀ hpath, home = some hpath → st.modules_home = hpath) ∧
    (home = none → ∀ hpath, w.env moduleshomeVar = some hpath →
      st.modules_home = hpath) ∧
    ∀ man : List Char,
      (Module.get_sub_commands st man).modules_home = st.modules_home ∧
      (Module.get_environment_variables st man).modules_home
        = st.modules_home ∧
      (Module.parse_man_file st man).modules_home = st.modules_home := by
  have hmain : ∀ hres : String, Module.resolveHome w.env home = .ok hres →
      st.modules_home = hres := by
    intro hres hr
    unfold Module.init at hok
    rw [hr] at hok
    dsimp only at hok
    cases hsif : Module.set_init_file w.fs hres init_file with
    | error e =>
      rw [hsif] at hok
      cases hok
    | ok p =>
      rw [hsif] at hok
      dsimp only at hok
      cases hex : w.execEff (w.read p) w.globals0 moduleFnName with
      | none =>
        rw [hex] at hok
        cases hok
      | some d =>
        rw [hex] at hok
        cases hok
        rfl
  refine ⟨?_, ?_, ?_⟩
  · intro hpath he
    subst he
    exact hmain hpath rfl
  · intro he hpath henv
    subst he
    apply hmain hpath
    simp [Module.resolveHome, henv]
  · intro man
    exact ⟨rfl, rfl, rfl⟩

theorem modules_home_stored_and_immutable_witness :
    (∀ hpath, (some ("/missing") : Option String) = some hpath →
      cxState.modules_home = hpath) ∧
    ((some ("/missing") : Option String) = none →
      ∀ hpath, worldA.env moduleshomeVar = some hpath →
        cxState.modules_home = hpath) ∧
    ∀ man : List Char,
      (Module.get_sub_commands cxState man).modules_home
        = cxState.modules_home ∧
      (Module.get_environment_variables cxState man).modules_home
        = cxState.modules_home ∧
      (Module.parse_man_file cxState man).modules_home
        = cxState.modules_home :=
  modules_home_stored_and_immutable worldA (some ("/missing"))
    (some ("/opt/modules/init/python.py")) cxState rfl

/-- C2 counterexample: on manual text entirely missing the environment
section marker, the parse raises nothing but replaces the default
environment-variable list with the empty list rather than leaving it in
effect. -/
theorem get_environment_variables_marker_absent_cx :
    (Module.get_environment_variables sampleState
        ("hello".toList)).envinronment_variables = [] ∧
      sampleState.envinronment_variables ≠ [] ∧
      ∀ i, i < ("hello".toList).length →
        ¬ occursAt ("hello".toList) envMarker i :=
  ⟨by decide, by decide, by decide⟩

/-- C2 (amended): when the environment-section marker is absent from the
manual text, parsing raises no exception (the operation is total) but the
environment-variable list is replaced by the empty list: the degenerate
bounds give an empty section and the scan extracts nothing. -/
theorem get_environment_variables_marker_absent (st : ModuleState)
    (man : List Char)
    (h : ∀ i, i < man.length → ¬ occursAt man envMarker i) :
    (Module.get_environment_variables st man).envinronment_variables = [] := by
  have hfindPos : pyFindPos envMarker man = none := by
    apply pyFindPos_eq_none
    intro i
    rcases lt_or_ge i man.length with hi | hi
    · exact h i hi
    · exact occursAt_not_of_length man envMarker i (by decide) hi
  have hfind : pyFind man envMarker = -1 := by
    unfold pyFind
    rw [hfindPos]
  have hsliceFrom : pySliceFrom man (-1 + 3) = man.drop 2 := by
    have he : ((-1 : Int) + 3) = ((2 : Nat) : Int) := by norm_num
    unfold pySliceFrom
    rw [he, drop_clampIndex man ((2 : Nat) : Int) (by norm_num)]
    rfl
  suffices hv : envVarsOf man = [] by
    show (envVarsOf man).map String.mk = []
    rw [hv]
    rfl
  simp only [envVarsOf, hfind, hsliceFrom]
  cases hf : pyFindPos envHeader (man.drop 2) with
  | none =>
    have hfind2 : pyFind (man.drop 2) envHeader = -1 := by
      unfold pyFind
      rw [hf]
    rw [hfind2]
    have he : ((-1 : Int) + -1 + 1) = (-1 : Int) := by norm_num
    rw [he]
    have hsec : pySlice man (-1) (-1) = [] := by
      unfold pySlice
      exact drop_take_eq_nil man _
    rw [hsec]
    rfl
  | some j =>
    have hfind2 : pyFind (man.drop 2) envHeader = (j : Int) := by
      unfold pyFind
      rw [hf]
    rw [hfind2]
    have hj3 := pyFindPos_some_le envHeader (man.drop 2) j hf
    rw [List.length_drop] at hj3
    have hjlen : envHeader.length = 3 := rfl
    rw [hjlen] at hj3
    have he : ((-1 : Int) + (j : Int) + 1) = ((j : Nat) : Int) := by ring
    rw [he]
    have hsec : pySlice man (-1) ((j : Nat) : Int) = [] := by
      unfold pySlice
      apply List.length_eq_zero.mp
      rw [List.length_drop, List.length_take]
      have h1 : clampIndex man.length ((j : Nat) : Int) = min j man.length :=
        clampIndex_ofNat _ _
      have h2 : clampIndex man.length (-1) = man.length - 1 := by
        unfold clampIndex
        rw [if_pos (by norm_num)]
        omega
      rw [h1, h2]
      omega
    rw [hsec]
    rfl

theorem get_environment_variables_marker_absent_witness :
    (Module.get_environment_variables sampleState
        ("no env section".toList)).envinronment_variables = [] :=
  get_environment_variables_marker_absent sampleState ("no env section".toList)
    (by decide)

theorem matchFrom_entryA (y : List Char) :
    matchFrom isSubTokChar (entryA ++ y) = some (11, ['A']) := rfl

theorem matchFrom_entryBC (y : List Char) :
    matchFrom isSubTokChar (entryBC ++ y) = some (13, ['B', '-', 'C']) := rfl

theorem sectionOf_length (b1 b2 b3 : List Char) :
    (sectionOf b1 b2 b3).length
      = 48 + b1.length + b2.length + (b3.take (b3.length - 2)).length := by
  have h24 : ssMarker.length = 24 := rfl
  have h11 : entryA.length = 11 := rfl
  have h13 : entryBC.length = 13 := rfl
  simp [sectionOf, List.length_append, h24, h11, h13]
  omega

theorem sectionOf_drop_p1 (b1 b2 b3 : List Char) :
    (sectionOf b1 b2 b3).drop (24 + b1.length)
      = entryA ++ (b2 ++ (entryBC ++ b3.take (b3.length - 2))) := by
  have hg : sectionOf b1 b2 b3
      = (ssMarker ++ b1)
        ++ (entryA ++ (b2 ++ (entryBC ++ b3.take (b3.length - 2)))) := by
    simp [sectionOf, List.append_assoc]
  rw [hg]
  apply List.drop_left'
  have h24 : ssMarker.length = 24 := rfl
  simp [List.length_append, h24]

theorem sectionOf_drop_p2 (b1 b2 b3 : List Char) :
    (sectionOf b1 b2 b3).drop (35 + b1.length + b2.length)
      = entryBC ++ b3.take (b3.length - 2) := by
  have hg : sectionOf b1 b2 b3
      = (((ssMarker ++ b1) ++ entryA) ++ b2)
        ++ (entryBC ++ b3.take (b3.length - 2)) := by
    simp [sectionOf, List.append_assoc]
  rw [hg]
  apply List.drop_left'
  have h24 : ssMarker.length = 24 := rfl
  have h11 : entryA.length = 11 := rfl
  simp [List.length_append, h24, h11]
  omega

theorem sectionOf_drop_mid (b1 b2 b3 : List Char) :
    (sectionOf b1 b2 b3).drop (24 + b1.length + 11)
      = b2 ++ (entryBC ++ b3.take (b3.length - 2)) := by
  have hd := List.drop_drop 11 (24 + b1.length) (sectionOf b1 b2 b3)
  rw [← hd, sectionOf_drop_p1]
  exact List.drop_left' rfl

theorem sectionOf_drop_end (b1 b2 b3 : List Char) :
    (sectionOf b1 b2 b3).drop (35 + b1.length + b2.length + 13)
      = b3.take (b3.length - 2) := by
  have hd := List.drop_drop 13 (35 + b1.length + b2.length) (sectionOf b1 b2 b3)
  rw [← hd, sectionOf_drop_p2]
  exact List.drop_left' rfl

theorem pyFindAll_sectionOf (b1 b2 b3 : List Char)
    (hm : ∀ i, i < (sectionOf b1 b2 b3).length → i ≠ 24 + b1.length →
      i ≠ 35 + b1.length + b2.length →
      matchFrom isSubTokChar ((sectionOf b1 b2 b3).drop i) = none) :
    pyFindAll isSubTokChar (sectionOf b1 b2 b3) = [['A'], ['B', '-', 'C']] := by
  have hlen := sectionOf_length b1 b2 b3
  calc pyFindAll isSubTokChar (sectionOf b1 b2 b3)
      = pyFindAll isSubTokChar ((sectionOf b1 b2 b3).drop (24 + b1.length)) := by
        apply pyFindAll_skip
        intro j hj
        exact hm j (by omega) (by omega) (by omega)
    _ = ['A'] :: pyFindAll isSubTokChar
          ((sectionOf b1 b2 b3).drop (24 + b1.length + 11)) := by
        rw [sectionOf_drop_p1, sectionOf_drop_mid]
        have hme := pyFindAll_eq_match isSubTokChar
          (entryA ++ (b2 ++ (entryBC ++ b3.take (b3.length - 2))))
          (11, ['A']) (matchFrom_entryA _)
        rw [hme]
        rfl
    _ = ['A'] :: pyFindAll isSubTokChar
          ((sectionOf b1 b2 b3).drop (35 + b1.length + b2.length)) := by
        congr 1
        rcases pyFindAll_skip_between isSubTokChar (sectionOf b1 b2 b3)
          (24 + b1.length + 11) (35 + b1.length + b2.length)
          (fun j hj1 hj2 => hm j (by omega) (by omega) (by omega))
          with hok | hlt
        · exact hok
        · omega
    _ = ['A'] :: (['B', '-', 'C'] :: pyFindAll isSubTokChar
          ((sectionOf b1 b2 b3).drop (35 + b1.length + b2.length + 13))) := by
        rw [sectionOf_drop_p2, sectionOf_drop_end]
        have hme := pyFindAll_eq_match isSubTokChar
          (entryBC ++ b3.take (b3.length - 2))
          (13, ['B', '-', 'C']) (matchFrom_entryBC _)
        rw [hme]
        rfl
    _ = [['A'], ['B', '-', 'C']] := by
        congr 2
        rcases pyFindAll_skip_between isSubTokChar (sectionOf b1 b2 b3)
          (35 + b1.length + b2.length + 13) (sectionOf b1 b2 b3).length
          (fun j hj1 hj2 => hm j (by omega) (by omega) (by omega))
          with hok | hlt
        · rw [hok, List.drop_length]
          rfl
        · omega

theorem bodyOf_length (b1 b2 b3 : List Char) :
    (bodyOf b1 b2 b3).length = 48 + b1.length + b2.length + b3.length := by
  have h24 : ssMarker.length = 24 := rfl
  have h11 : entryA.length = 11 := rfl
  have h13 : entryBC.length = 13 := rfl
  simp [bodyOf, List.length_append, h24, h11, h13]
  omega

theorem mkMan_length (pre b1 b2 b3 rest : List Char) :
    (mkMan pre b1 b2 b3 rest).length
      = pre.length + (bodyOf b1 b2 b3).length + 3 + rest.length := by
  have h3 : ssHeader.length = 3 := rfl
  simp [mkMan, List.length_append, h3]
  omega

theorem mkMan_find_marker (pre b1 b2 b3 rest : List Char)
    (hpre : ∀ i, i < pre.length →
      ¬ occursAt (mkMan pre b1 b2 b3 rest) ssMarker i) :
    pyFindPos ssMarker (mkMan pre b1 b2 b3 rest) = some pre.length := by
  apply pyFindPos_eq_some
  · unfold occursAt
    have hg : mkMan pre b1 b2 b3 rest
        = pre ++ (ssMarker ++ (b1 ++ (entryA ++ (b2
            ++ (entryBC ++ (b3 ++ (ssHeader ++ rest))))))) := by
      simp [mkMan, bodyOf, List.append_assoc]
    rw [hg, List.drop_left]
    exact List.take_left ssMarker _
  · exact hpre

theorem mkMan_find_header (pre b1 b2 b3 rest : List Char)
    (hss : ∀ i, pre.length + 3 ≤ i →
      i < pre.length + (bodyOf b1 b2 b3).length →
      ¬ occursAt (mkMan pre b1 b2 b3 rest) ssHeader i) :
    pyFindPos ssHeader ((mkMan pre b1 b2 b3 rest).drop (pre.length + 3))
      = some ((bodyOf b1 b2 b3).length - 3) := by
  have hbl := bodyOf_length b1 b2 b3
  have hg2 : mkMan pre b1 b2 b3 rest
      = (pre ++ bodyOf b1 b2 b3) ++ (ssHeader ++ rest) := by
    simp [mkMan, List.append_assoc]
  apply pyFindPos_eq_some
  · unfold occursAt
    rw [List.drop_drop]
    have hix : pre.length + 3 + ((bodyOf b1 b2 b3).length - 3)
        = (pre ++ bodyOf b1 b2 b3).length := by
      rw [List.length_append]
      omega
    rw [hix, hg2, List.drop_left]
    exact List.take_left ssHeader rest
  · intro i hi
    unfold occursAt
    rw [List.drop_drop]
    exact hss (pre.length + 3 + i) (by omega) (by omega)

theorem mkMan_section (pre b1 b2 b3 rest : List Char) (hb3 : 2 ≤ b3.length) :
    ((mkMan pre b1 b2 b3 rest).take
        (pre.length + (bodyOf b1 b2 b3).length - 2)).drop pre.length
      = sectionOf b1 b2 b3 := by
  have hbl := bodyOf_length b1 b2 b3
  have h24 : ssMarker.length = 24 := rfl
  have h11 : entryA.length = 11 := rfl
  have h13 : entryBC.length = 13 := rfl
  have hg2 : mkMan pre b1 b2 b3 rest
      = pre ++ (bodyOf b1 b2 b3 ++ (ssHeader ++ rest)) := by
    simp [mkMan, List.append_assoc]
  rw [hg2, List.take_append_eq_append_take,
    List.take_of_length_le (by omega : pre.length
      ≤ pre.length + (bodyOf b1 b2 b3).length - 2), List.drop_left]
  have hN : pre.length + (bodyOf b1 b2 b3).length - 2 - pre.length
      = (bodyOf b1 b2 b3).length - 2 := by omega
  rw [hN, List.take_append_eq_append_take]
  have h0 : (bodyOf b1 b2 b3).length - 2 - (bodyOf b1 b2 b3).length = 0 := by
    omega
  rw [h0, List.take_zero, List.append_nil]
  have hsplit : bodyOf b1 b2 b3
      = (ssMarker ++ b1 ++ entryA ++ b2 ++ entryBC) ++ b3 := rfl
  have hFlen : (ssMarker ++ b1 ++ entryA ++ b2 ++ entryBC).length
      = 48 + b1.length + b2.length := by
    simp [List.length_append, h24, h11, h13]
    omega
  rw [hsplit, List.take_append_eq_append_take]
  have hF1 : (ssMarker ++ b1 ++ entryA ++ b2 ++ entryBC).length
      ≤ ((ssMarker ++ b1 ++ entryA ++ b2 ++ entryBC) ++ b3).length - 2 := by
    simp only [List.length_append, h24, h11, h13]
    omega
  rw [List.take_of_length_le hF1]
  have hidx : ((ssMarker ++ b1 ++ entryA ++ b2 ++ entryBC) ++ b3).length - 2
      - (ssMarker ++ b1 ++ entryA ++ b2 ++ entryBC).length = b3.length - 2 := by
    simp only [List.length_append, h24, h11, h13]
    omega
  rw [hidx]
  rfl

/-- C9 (amended): on manual text whose well-formed sub-commands section has
entries `A` and `B-C` and keeps at least two characters of trailing section
text after the final entry (the extractor stops two characters short of the
bounding marker), the parse replaces the sub-command sequence with exactly
`["A", "B-C"]`, whatever the surrounding sections contain. -/
theorem get_sub_commands_wellformed (st : ModuleState)
    (pre b1 b2 b3 rest : List Char) (hb3 : 2 ≤ b3.length)
    (hpre : ∀ i, i < pre.length →
      ¬ occursAt (mkMan pre b1 b2 b3 rest) ssMarker i)
    (hss : ∀ i, pre.length + 3 ≤ i →
      i < pre.length + (bodyOf b1 b2 b3).length →
      ¬ occursAt (mkMan pre b1 b2 b3 rest) ssHeader i)
    (hm : ∀ i, i < (sectionOf b1 b2 b3).length → i ≠ 24 + b1.length →
      i ≠ 35 + b1.length + b2.length →
      matchFrom isSubTokChar ((sectionOf b1 b2 b3).drop i) = none) :
    (Module.get_sub_commands st (mkMan pre b1 b2 b3 rest)).sub_commands
      = ["A", "B-C"] := by
  have hbl := bodyOf_length b1 b2 b3
  have hml := mkMan_length pre b1 b2 b3 rest
  suffices hv : subCommandsOf (mkMan pre b1 b2 b3 rest)
      = [['A'], ['B', '-', 'C']] by
    show (subCommandsOf (mkMan pre b1 b2 b3 rest)).map String.mk = _
    rw [hv]
    rfl
  have hfind1 : pyFind (mkMan pre b1 b2 b3 rest) ssMarker
      = (pre.length : Int) := by
    unfold pyFind
    rw [mkMan_find_marker pre b1 b2 b3 rest hpre]
  have hsliceFrom : pySliceFrom (mkMan pre b1 b2 b3 rest)
      ((pre.length : Int) + 3)
      = (mkMan pre b1 b2 b3 rest).drop (pre.length + 3) := by
    have hcast : ((pre.length : Int) + 3) = ((pre.length + 3 : Nat) : Int) := by
      push_cast
      ring
    unfold pySliceFrom
    rw [hcast, drop_clampIndex _ _ (by omega)]
    rw [Int.toNat_ofNat]
  have hfind2 : pyFind ((mkMan pre b1 b2 b3 rest).drop (pre.length + 3))
      ssHeader = (((bodyOf b1 b2 b3).length - 3 : Nat) : Int) := by
    unfold pyFind
    rw [mkMan_find_header pre b1 b2 b3 rest hss]
  have hidx : (pre.length : Int) + (((bodyOf b1 b2 b3).length - 3 : Nat) : Int)
      + 1 = ((pre.length + (bodyOf b1 b2 b3).length - 2 : Nat) : Int) := by
    omega
  have hslice : pySlice (mkMan pre b1 b2 b3 rest) ((pre.length : Nat) : Int)
      ((pre.length + (bodyOf b1 b2 b3).length - 2 : Nat) : Int)
      = ((mkMan pre b1 b2 b3 rest).take
          (pre.length + (bodyOf b1 b2 b3).length - 2)).drop pre.length := by
    unfold pySlice
    rw [clampIndex_ofNat, clampIndex_ofNat,
      min_eq_left (by omega), min_eq_left (by omega)]
  simp only [subCommandsOf, hfind1, hsliceFrom, hfind2, hidx, hslice]
  rw [mkMan_section pre b1 b2 b3 rest hb3]
  exact pyFindAll_sectionOf b1 b2 b3 hm

/-- Manual text with a well-formed sub-commands section holding entries `A`
and `B-C`, whose final entry is followed by a single newline before the
bounding `.SS` marker. -/
def cxMan : List Char :=
  ".SS Module Sub\\-Commands\n.sp\n\\fBA\\fP text\n.sp\n\\fBB-C\\fP\n.SS X\n".toList

/-- C9 counterexample: on `cxMan` the parse yields only `["A"]` — the
extracted section stops two characters before the following `.SS`, clipping
the final entry's closing `\fP` — although the text is exactly a well-formed
section with entries `A` and `B-C` (third conjunct). -/
theorem get_sub_commands_boundary_cx :
    (Module.get_sub_commands sampleState cxMan).sub_commands = ["A"] ∧
      (Module.get_sub_commands sampleState cxMan).sub_commands ≠ ["A", "B-C"] ∧
      cxMan = mkMan [] ("\n".toList) (" text\n".toList) ("\n".toList)
        (" X\n".toList) :=
  ⟨by decide, by decide, by decide⟩

/-- Prefix of the witness manual. -/
def wpre : List Char := "INTRO\n".toList

/-- Witness text between the section header and the first entry. -/
def wb1 : List Char := "\n".toList

/-- Witness text between the two entries. -/
def wb2 : List Char := " loads\n".toList

/-- Witness trailing section text (at least two characters). -/
def wb3 : List Char := "\ntext\n".toList

/-- Witness remainder of the manual after the bounding marker. -/
def wrest : List Char := " OTHER\n".toList

theorem get_sub_commands_wellformed_witness :
    (Module.get_sub_commands sampleState
        (mkMan wpre wb1 wb2 wb3 wrest)).sub_commands = ["A", "B-C"] :=
  get_sub_commands_wellformed sampleState wpre wb1 wb2 wb3 wrest
    (by decide) (by decide) (by decide)
    (by
      have hd : ∀ i, i < (sectionOf wb1 wb2 wb3).length →
          (i = 24 + wb1.length ∨ i = 35 + wb1.length + wb2.length ∨
            matchFrom isSubTokChar ((sectionOf wb1 wb2 wb3).drop i) = none) := by
        decide
      intro i hi h1 h2
      rcases hd i hi with h | h | h
      · exact absurd h h1
      · exact absurd h h2
      · exact h)
